import Mathlib

/-!
Verification of the inTouch backend (friendship graph and identity sync).

Shallow embedding of the Express/Prisma backend:
  - `backend/src/controllers/friendController.js` (addFriend, removeFriend,
    getFriendRequests, acceptFriendRequest, rejectFriendRequest),
  - `backend/src/controllers/userController.js` (getUserFriends, searchUsers),
  - `backend/src/middleware/auth.js` second part (syncUser).

The Prisma store is modelled as explicit lists of rows; each handler becomes a
pure function from a store (and its request inputs) to a result together with
the updated store.  Request-body fields that may be absent (`undefined` in
JavaScript) are modelled as `Option String`; JavaScript strict equality
`a === b` on two such fields is `Option.decEq` equality (in particular
`undefined === undefined` is true).  Prisma ignores `undefined` values inside a
`where` filter, which `matchOpt` reproduces.
-/

namespace InTouch

/-- Friendship status enum from the Prisma schema (`PENDING`/`ACCEPTED`). -/
inductive FriendStatus where
  | PENDING
  | ACCEPTED
deriving DecidableEq, Repr

/-- A row of the Friendship table: directed edge `userId -> friendId` with a
status.  `id` is the Prisma-generated primary key, modelled as a `Nat` drawn
from a store counter. -/
structure Friendship where
  id : Nat
  userId : String
  friendId : String
  status : FriendStatus
deriving DecidableEq, Repr

/-- A row of the User table (the fields the verified handlers touch).
`clerkId` is nullable until the user is synced; `name` is nullable. -/
structure User where
  id : String
  clerkId : Option String
  email : String
  name : Option String
  createdAt : Nat
  lastUpdated : Nat
deriving DecidableEq, Repr

/-- The relational store: Users and Friendships tables plus the id counters
that stand in for Prisma id generation. -/
structure Store where
  users : List User
  friendships : List Friendship
  nextUserId : Nat
  nextFriendshipId : Nat
deriving DecidableEq, Repr

/-- Error outcomes of the handlers, named after the HTTP responses the
controllers send: `selfFriend` is the 400 "Cannot add yourself as a friend.",
`conflict` the P2002 mapping (400 "already sent" / 409 email conflict),
`notFound` the P2025 mapping (404), `validation` the 400 "Email is required",
`unauthorized` the 401, `internal` the catch-all 500. -/
inductive ApiError where
  | validation
  | selfFriend
  | conflict
  | notFound
  | unauthorized
  | internal
deriving DecidableEq, Repr

/-- A Prisma `where`-clause field: an `undefined` value (`none`) is ignored by
Prisma, i.e. matches every row; a present value must equal the column. -/
def matchOpt (v : Option String) (field : String) : Bool :=
  match v with
  | none => true
  | some x => x == field

/-- Fresh User ids, standing in for Prisma cuid generation. -/
def genUserId (n : Nat) : String :=
  "u" ++ toString n

/-- Model of `addFriend` (friendController.js, request/accept variant): destructures
`userId`/`friendId` from the body, rejects `userId === friendId` with 400,
then creates a PENDING edge.  A P2002 unique-constraint violation is mapped
to the duplicate-request 400.  The uniqueness constraint itself —
Modelled from the spec: the Prisma schema file is not in the source tree; per
§3 "at most one edge exists for a given ordered (userId, friendId) pair",
enforced at the storage layer (§5) — is the `any` check below.  A body missing
one endpoint (but not both) reaches `prisma.friendship.create` with a missing
required field, which throws and lands in the generic 500 branch. -/
def addFriend (s : Store) (userId friendId : Option String) :
    Except ApiError Friendship × Store :=
  if userId = friendId then
    (Except.error ApiError.selfFriend, s)
  else
    match userId, friendId with
    | some u, some f =>
        if s.friendships.any (fun e => e.userId == u && e.friendId == f) then
          (Except.error ApiError.conflict, s)
        else
          let e : Friendship :=
            { id := s.nextFriendshipId, userId := u, friendId := f,
              status := FriendStatus.PENDING }
          (Except.ok e,
            { s with friendships := s.friendships ++ [e],
                     nextFriendshipId := s.nextFriendshipId + 1 })
    | _, _ => (Except.error ApiError.internal, s)

/-- Model of `removeFriend` (friendController.js): `findFirst` on the ordered
pair of `userId` and `friendId` (an `undefined` field is ignored by Prisma), 404 if no
row matches, otherwise delete the found row by id. -/
def removeFriend (s : Store) (userId friendId : Option String) :
    Except ApiError Unit × Store :=
  match s.friendships.find?
      (fun e => matchOpt userId e.userId && matchOpt friendId e.friendId) with
  | none => (Except.error ApiError.notFound, s)
  | some f =>
      (Except.ok (),
        { s with friendships := s.friendships.filter (fun e => e.id != f.id) })

/-- Model of `acceptFriendRequest` (friendController.js): `update` on the edge id,
setting `status` to ACCEPTED; Prisma P2025 (no such row) is mapped to 404. -/
def acceptFriendRequest (s : Store) (id : Nat) :
    Except ApiError Friendship × Store :=
  match s.friendships.find? (fun e => e.id == id) with
  | none => (Except.error ApiError.notFound, s)
  | some f =>
      let f' : Friendship := { f with status := FriendStatus.ACCEPTED }
      (Except.ok f',
        { s with friendships :=
            s.friendships.map (fun e => if e.id == id then f' else e) })

/-- Model of `rejectFriendRequest` (friendController.js): `delete` on the edge id;
Prisma P2025 (no such row) is mapped to 404. -/
def rejectFriendRequest (s : Store) (id : Nat) :
    Except ApiError Unit × Store :=
  if s.friendships.any (fun e => e.id == id) then
    (Except.ok (),
      { s with friendships := s.friendships.filter (fun e => e.id != id) })
  else
    (Except.error ApiError.notFound, s)

/-- Model of `getFriendRequests` (friendController.js): all PENDING edges whose
`friendId` is the given user, each sender row annotated with the edge id. -/
def getFriendRequests (s : Store) (userId : String) : List (User × Nat) :=
  (s.friendships.filter
      (fun e => e.friendId == userId && e.status == FriendStatus.PENDING)).filterMap
    (fun e => (s.users.find? (fun v => v.id == e.userId)).map (fun v => (v, e.id)))

/-- Model of `getUserFriends` (userController.js): `findMany` on `userId = id` —
note there is no `status` condition in the query — with the `friend` relation
included, then each friend row annotated with the friendship id. -/
def getUserFriends (s : Store) (id : String) : List (User × Nat) :=
  (s.friendships.filter (fun e => e.userId == id)).filterMap
    (fun e => (s.users.find? (fun v => v.id == e.friendId)).map (fun v => (v, e.id)))

/-- JavaScript `String.prototype.trim()`: strip leading and trailing
whitespace. -/
def jsTrim (s : String) : String :=
  String.mk (((s.data.dropWhile Char.isWhitespace).reverse.dropWhile
    Char.isWhitespace).reverse)

/-- Case-insensitive substring containment, the model of Prisma
`contains` with `mode: 'insensitive'` applied to a lowercased needle. -/
def substrContains (hay pat : String) : Bool :=
  decide (pat.toList <:+: hay.toList)

/-- Model of `searchUsers` (userController.js): empty or whitespace-only `q` (or the
absent query parameter, which is the empty trimmed string as well) yields `[]`;
otherwise a case-insensitive substring match over `email` and `name`, capped
by `take: 10`.  A null `name` column matches nothing. -/
def searchUsers (users : List User) (q : String) : List User :=
  if jsTrim q == "" then []
  else
    let searchTerm := (jsTrim q).toLower
    (users.filter (fun u =>
        substrContains u.email.toLower searchTerm ||
        (match u.name with
         | some n => substrContains n.toLower searchTerm
         | none => false))).take 10

/-- The profile hint a client sends to `POST /sync` (`req.body`); each field
may be absent.  `username` is destructured by the controller but never used
in a query. -/
structure Profile where
  email : Option String
  name : Option String
  username : Option String
deriving DecidableEq, Repr

/-- The `name` part of the Prisma `update` data in `syncUser`: an
`undefined` `name` is skipped by Prisma (column keeps its old value), a
present one overwrites it. -/
def patchName (new old : Option String) : Option String :=
  match new with
  | none => old
  | some n => some n

/-- Model of `syncUser` (auth.js, sync controller): 401 without a Clerk user id from
the middleware; 400 if the body has no (or a falsy, i.e. empty) `email`;
otherwise look the user up by `clerkId` and either update `email`, `name`,
`lastUpdated` on the found row or create a fresh row with `clerkId`, `email`,
`name`.  A P2002 unique-constraint violation is mapped to the 409 email
conflict.  The `email` uniqueness constraint itself —
Modelled from the spec: the Prisma schema file is not in the source tree; per
§3 "`email`: unique ... conflict-detection key" — is the `any` check in each
branch, which fires exactly when the written email already belongs to a
different row.  `now` stands for `new Date()` / the row-creation timestamp. -/
def syncUser (s : Store) (clerkUserId : Option String) (p : Profile)
    (now : Nat) : Except ApiError User × Store :=
  match clerkUserId with
  | none => (Except.error ApiError.unauthorized, s)
  | some cid =>
      match p.email with
      | none => (Except.error ApiError.validation, s)
      | some em =>
          if em == "" then (Except.error ApiError.validation, s)
          else
            match s.users.find? (fun u => u.clerkId == some cid) with
            | some u =>
                if s.users.any (fun v => v.id != u.id && v.email == em) then
                  (Except.error ApiError.conflict, s)
                else
                  let u' : User :=
                    { u with email := em, name := patchName p.name u.name,
                             lastUpdated := now }
                  (Except.ok u',
                    { s with users :=
                        s.users.map (fun v => if v.id == u.id then u' else v) })
            | none =>
                if s.users.any (fun v => v.email == em) then
                  (Except.error ApiError.conflict, s)
                else
                  let u : User :=
                    { id := genUserId s.nextUserId, clerkId := some cid,
                      email := em, name := p.name, createdAt := now,
                      lastUpdated := now }
                  (Except.ok u,
                    { s with users := s.users ++ [u],
                             nextUserId := s.nextUserId + 1 })

/-- The states reachable from an edge-free store by the friendship-graph
operations (`sendRequest`/`acceptRequest`/`rejectRequest`/`removeFriendship`),
with arbitrary request inputs at every step. -/
inductive Reachable : Store → Prop where
  | base (users : List User) (nextU : Nat) :
      Reachable { users := users, friendships := [], nextUserId := nextU,
                  nextFriendshipId := 0 }
  | add {s : Store} (userId friendId : Option String) :
      Reachable s → Reachable (addFriend s userId friendId).2
  | remove {s : Store} (userId friendId : Option String) :
      Reachable s → Reachable (removeFriend s userId friendId).2
  | accept {s : Store} (id : Nat) :
      Reachable s → Reachable (acceptFriendRequest s id).2
  | reject {s : Store} (id : Nat) :
      Reachable s → Reachable (rejectFriendRequest s id).2

/-! ## Claim theorems -/

/-- C9: For every query string that is empty or consists only of whitespace,
`searchUsers` returns an empty result list (not an error and not all users);
and for every query, the result list has at most 10 users. -/
theorem searchUsers_empty_query_and_cap (users : List User) (q : String) :
    (jsTrim q = "" → searchUsers users q = []) ∧
    (searchUsers users q).length ≤ 10 := by
  constructor
  · intro h
    simp [searchUsers, h]
  · by_cases h : jsTrim q = ""
    · simp [searchUsers, h]
    · simp only [searchUsers, beq_iff_eq, if_neg h]
      exact List.length_take_le 10 _

/-- C9 witness: a whitespace-only query over a nonempty table yields `[]`,
and a real query's result length is within the cap. -/
theorem searchUsers_empty_query_and_cap_witness :
    (searchUsers [{ id := "B", clerkId := none, email := "b@x.com",
                    name := some "Bee", createdAt := 0, lastUpdated := 0 }] "  " = []) ∧
    (searchUsers [{ id := "B", clerkId := none, email := "b@x.com",
                    name := some "Bee", createdAt := 0, lastUpdated := 0 }] "bee").length ≤ 10 :=
  ⟨(searchUsers_empty_query_and_cap _ "  ").1 (by decide),
   (searchUsers_empty_query_and_cap _ "bee").2⟩

/-- C10: A `sendRequest` body that omits both `userId` and `friendId` hits the
strict-equality self-friendship guard (`undefined === undefined` is true): the
call is rejected with the self-friendship 400 and the store, in particular
the Friendship table, is unchanged — no edge with missing endpoints is ever
created. -/
theorem addFriend_both_missing_rejected (s : Store) :
    addFriend s none none = (Except.error ApiError.selfFriend, s) := rfl

/-- C3 amended: For every friendship id that does not resolve to an existing
edge (which includes rejected and removed ids, whose edges were deleted),
`acceptRequest` fails with `NotFoundError` and leaves the store unchanged. -/
theorem acceptFriendRequest_unresolved_notFound (s : Store) (id : Nat)
    (h : s.friendships.find? (fun e => e.id == id) = none) :
    acceptFriendRequest s id = (Except.error ApiError.notFound, s) := by
  unfold acceptFriendRequest
  rw [h]

/-- C3 witness: accepting on an empty Friendship table fails with 404. -/
theorem acceptFriendRequest_unresolved_notFound_witness :
    acceptFriendRequest
        { users := [], friendships := [], nextUserId := 0, nextFriendshipId := 0 } 7 =
      (Except.error ApiError.notFound,
        { users := [], friendships := [], nextUserId := 0, nextFriendshipId := 0 }) :=
  acceptFriendRequest_unresolved_notFound _ 7 rfl

/-- A store holding the single pending request `A -> B` with edge id 0. -/
def pendingReqStore : Store :=
  { users := [], friendships := [⟨0, "A", "B", FriendStatus.PENDING⟩],
    nextUserId := 0, nextFriendshipId := 1 }

/-- C3 counterexample: an id whose request was already accepted still
resolves — `acceptFriendRequest` does not delete the edge, it only flips the
status — so a second `acceptRequest` on the same id succeeds again instead of
failing with `NotFoundError`. -/
theorem acceptFriendRequest_accepted_id_still_resolves :
    (acceptFriendRequest (acceptFriendRequest pendingReqStore 0).2 0).1 =
      Except.ok ⟨0, "A", "B", FriendStatus.ACCEPTED⟩ ∧
    (acceptFriendRequest (acceptFriendRequest pendingReqStore 0).2 0).1 ≠
      Except.error ApiError.notFound :=
  ⟨rfl, fun h => Except.noConfusion h⟩

/-- C4: With `userId ≠ friendId` and no pre-existing edge for the ordered
pair, the first `sendRequest` succeeds and creates a PENDING edge, and a
second `sendRequest` with the same ordered pair on the resulting store fails
with the duplicate conflict (the unique-constraint violation mapped at the
catch) and changes nothing. -/
theorem addFriend_then_duplicate_conflict (s : Store) (u f : String)
    (hne : u ≠ f)
    (hno : s.friendships.any (fun e => e.userId == u && e.friendId == f) = false) :
    ∃ e s1, addFriend s (some u) (some f) = (Except.ok e, s1) ∧
      e.status = FriendStatus.PENDING ∧
      addFriend s1 (some u) (some f) = (Except.error ApiError.conflict, s1) := by
  have hg : ¬ (some u = some f) := by simpa using hne
  refine ⟨{ id := s.nextFriendshipId, userId := u, friendId := f,
            status := FriendStatus.PENDING },
          { s with
              friendships := s.friendships ++
                [{ id := s.nextFriendshipId, userId := u, friendId := f,
                   status := FriendStatus.PENDING }],
              nextFriendshipId := s.nextFriendshipId + 1 },
          ?_, rfl, ?_⟩
  · simp [addFriend, hg, hno]
  · simp [addFriend, hg, hno, List.any_append]

/-- C4 witness: the request `A -> B` on the empty store, sent twice. -/
theorem addFriend_then_duplicate_conflict_witness :
    ∃ e s1,
      addFriend { users := [], friendships := [], nextUserId := 0, nextFriendshipId := 0 }
          (some "A") (some "B") = (Except.ok e, s1) ∧
      e.status = FriendStatus.PENDING ∧
      addFriend s1 (some "A") (some "B") = (Except.error ApiError.conflict, s1) :=
  addFriend_then_duplicate_conflict _ "A" "B" (by decide) rfl

/-- C1 amended: membership in `getUserFriends s x` is exactly "some edge of
the table has `userId = x`" — with no condition on the status — "whose
`friendId` resolves to this user row, annotated with that edge's id". -/
theorem getUserFriends_mem_iff (s : Store) (x : String) (u : User) (fid : Nat) :
    (u, fid) ∈ getUserFriends s x ↔
      ∃ e ∈ s.friendships, e.userId = x ∧ e.id = fid ∧
        s.users.find? (fun v => v.id == e.friendId) = some u := by
  simp only [getUserFriends, List.mem_filterMap, List.mem_filter,
    Option.map_eq_some', Prod.mk.injEq, beq_iff_eq]
  constructor
  · rintro ⟨e, ⟨he, hux⟩, v, hfind, rfl, rfl⟩
    exact ⟨e, he, hux, rfl, hfind⟩
  · rintro ⟨e, he, hux, rfl, hfind⟩
    exact ⟨e, ⟨he, hux⟩, u, hfind, rfl, rfl⟩

/-- A user row for the target side of an edge. -/
def userB : User :=
  { id := "B", clerkId := none, email := "b@x.com", name := some "Bee",
    createdAt := 0, lastUpdated := 0 }

/-- A store holding the single still-PENDING edge `A -> B` (edge id 0) and
the user row `B`. -/
def pendingEdgeStore : Store :=
  { users := [userB], friendships := [⟨0, "A", "B", FriendStatus.PENDING⟩],
    nextUserId := 0, nextFriendshipId := 1 }

/-- Modelled from the spec: `getFriends` as §4.2 words it — "all Users
reachable via an ACCEPTED edge where `userId` is the owning side, each
annotated with the edge id" — stated for comparison with the implemented
`getUserFriends`. -/
def getFriendsSpec (s : Store) (id : String) : List (User × Nat) :=
  (s.friendships.filter
      (fun e => e.userId == id && e.status == FriendStatus.ACCEPTED)).filterMap
    (fun e => (s.users.find? (fun v => v.id == e.friendId)).map (fun v => (v, e.id)))

/-- C1 counterexample: with a PENDING edge `A -> B`, the implemented query
(no status filter) returns B, while the claimed ACCEPTED-only query returns
nothing — PENDING edges are included, contrary to the claim. -/
theorem getUserFriends_pending_included :
    getUserFriends pendingEdgeStore "A" = [(userB, 0)] ∧
    getFriendsSpec pendingEdgeStore "A" = [] := by
  constructor <;> rfl

/-- C2 amended: `removeFriendship(a, b)` succeeds exactly when some edge is
stored in that same orientation (`userId = a`, `friendId = b`); the lookup is
on the ordered pair only, so an edge stored as `(userId = b, friendId = a)`
is not found and the call fails with `NotFoundError`. -/
theorem removeFriend_ok_iff_ordered (s : Store) (a b : String) :
    (removeFriend s (some a) (some b)).1 = Except.ok () ↔
      ∃ e ∈ s.friendships, e.userId = a ∧ e.friendId = b := by
  unfold removeFriend
  cases hf : s.friendships.find?
      (fun e => matchOpt (some a) e.userId && matchOpt (some b) e.friendId) with
  | none =>
      constructor
      · intro h
        exact Except.noConfusion h
      · rintro ⟨e, he, h1, h2⟩
        have hp := List.find?_eq_none.mp hf e he
        simp [matchOpt, h1, h2] at hp
  | some f =>
      constructor
      · intro _
        have hp := List.find?_some hf
        simp only [matchOpt, Bool.and_eq_true, beq_iff_eq] at hp
        exact ⟨f, List.mem_of_find?_eq_some hf, hp.1.symm, hp.2.symm⟩
      · intro _
        rfl

/-- A store whose only edge is stored in the orientation `B -> A`. -/
def reversedEdgeStore : Store :=
  { users := [], friendships := [⟨0, "B", "A", FriendStatus.ACCEPTED⟩],
    nextUserId := 0, nextFriendshipId := 1 }

/-- C2 counterexample: an edge exists for the unordered pair `{A, B}` (stored
as `userId = B, friendId = A`), yet `removeFriendship(A, B)` fails with
`NotFoundError` and deletes nothing — the lookup is not symmetric. -/
theorem removeFriend_reversed_pair_notFound :
    removeFriend reversedEdgeStore (some "A") (some "B") =
      (Except.error ApiError.notFound, reversedEdgeStore) ∧
    reversedEdgeStore.friendships = [⟨0, "B", "A", FriendStatus.ACCEPTED⟩] := by
  constructor <;> rfl

/-- No stored edge is a self-loop. -/
def NoSelfEdges (s : Store) : Prop :=
  ∀ e ∈ s.friendships, e.userId ≠ e.friendId

lemma noSelfEdges_addFriend (s : Store) (userId friendId : Option String)
    (h : NoSelfEdges s) : NoSelfEdges (addFriend s userId friendId).2 := by
  unfold addFriend
  by_cases hg : userId = friendId
  · simpa [hg] using h
  · rcases userId with _ | u <;> rcases friendId with _ | f
    · exact absurd rfl hg
    · simpa [hg] using h
    · simpa [hg] using h
    · by_cases hd : s.friendships.any (fun e => e.userId == u && e.friendId == f) = true
      · simpa [hg, hd] using h
      · have hd' : s.friendships.any (fun e => e.userId == u && e.friendId == f) = false := by
          simpa using hd
        intro e he
        simp only [hg, hd', if_neg, Bool.false_eq_true, if_false,
          List.mem_append, List.mem_singleton] at he
        rcases he with he | rfl
        · exact h e he
        · exact fun hh => hg (congrArg some hh)

lemma noSelfEdges_removeFriend (s : Store) (userId friendId : Option String)
    (h : NoSelfEdges s) : NoSelfEdges (removeFriend s userId friendId).2 := by
  unfold removeFriend
  cases hf : s.friendships.find?
      (fun e => matchOpt userId e.userId && matchOpt friendId e.friendId) with
  | none => exact h
  | some f =>
      intro e he
      simp only [List.mem_filter] at he
      exact h e he.1

lemma noSelfEdges_acceptFriendRequest (s : Store) (id : Nat)
    (h : NoSelfEdges s) : NoSelfEdges (acceptFriendRequest s id).2 := by
  unfold acceptFriendRequest
  cases hf : s.friendships.find? (fun e => e.id == id) with
  | none => exact h
  | some f =>
      intro e he
      simp only [List.mem_map] at he
      obtain ⟨w, hw, hwe⟩ := he
      by_cases hid : (w.id == id) = true
      · rw [if_pos hid] at hwe
        subst hwe
        exact h f (List.mem_of_find?_eq_some hf)
      · rw [if_neg hid] at hwe
        subst hwe
        exact h w hw

lemma noSelfEdges_rejectFriendRequest (s : Store) (id : Nat)
    (h : NoSelfEdges s) : NoSelfEdges (rejectFriendRequest s id).2 := by
  unfold rejectFriendRequest
  by_cases hd : s.friendships.any (fun e => e.id == id) = true
  · simp only [hd, if_true]
    intro e he
    simp only [List.mem_filter] at he
    exact h e he.1
  · have hd' : s.friendships.any (fun e => e.id == id) = false := by simpa using hd
    simpa [hd'] using h

/-- C8: In every store reachable by the friendship operations, every stored
edge satisfies `userId ≠ friendId`: `sendRequest` rejects self-requests
before creating anything, and no other operation changes an edge's
endpoints. -/
theorem reachable_edges_no_self (s : Store) (hr : Reachable s) :
    s.friendships.all (fun e => e.userId != e.friendId) = true := by
  rw [List.all_eq_true]
  have key : NoSelfEdges s := by
    induction hr with
    | base users nextU =>
        intro e he
        simp at he
    | add userId friendId hs ih => exact noSelfEdges_addFriend _ _ _ ih
    | remove userId friendId hs ih => exact noSelfEdges_removeFriend _ _ _ ih
    | accept id hs ih => exact noSelfEdges_acceptFriendRequest _ _ ih
    | reject id hs ih => exact noSelfEdges_rejectFriendRequest _ _ ih
  intro e he
  simpa [bne_iff_ne] using key e he

/-- C8 witness: the store reached from an empty table by one successful
`sendRequest("A", "B")` has only non-self edges. -/
theorem reachable_edges_no_self_witness :
    ((addFriend
        { users := [], friendships := [], nextUserId := 0, nextFriendshipId := 0 }
        (some "A") (some "B")).2).friendships.all
      (fun e => e.userId != e.friendId) = true :=
  reachable_edges_no_self _
    (Reachable.add (some "A") (some "B") (Reachable.base [] 0))

/-- C6: A sync call in an authenticated context whose profile hint lacks an
email (absent, or the falsy empty string) fails with the validation error and
performs no mutation: the store — in particular the Users table — is exactly
what it was. -/
theorem syncUser_missing_email_no_mutation (s : Store) (c : String)
    (p : Profile) (now : Nat)
    (h : p.email = none ∨ p.email = some "") :
    syncUser s (some c) p now = (Except.error ApiError.validation, s) := by
  rcases h with h | h <;> simp [syncUser, h]

/-- C6 witness: an email-less profile hint against a one-row table. -/
theorem syncUser_missing_email_no_mutation_witness :
    syncUser
        { users := [{ id := "u0", clerkId := some "c", email := "a@x.com",
                      name := none, createdAt := 0, lastUpdated := 0 }],
          friendships := [], nextUserId := 1, nextFriendshipId := 0 }
        (some "c") { email := none, name := some "N", username := none } 3 =
      (Except.error ApiError.validation,
        { users := [{ id := "u0", clerkId := some "c", email := "a@x.com",
                      name := none, createdAt := 0, lastUpdated := 0 }],
          friendships := [], nextUserId := 1, nextFriendshipId := 0 }) :=
  syncUser_missing_email_no_mutation _ "c" _ 3 (Or.inl rfl)

/-- C7: Syncing against an existing row (found by `clerkId`) returns an
updated user whose `email`, `name`, `lastUpdated` come from the profile hint
while `id`, `clerkId`, `createdAt` are unchanged; every other Users row is
untouched (same rows, same count) and the Friendships table is untouched. -/
theorem syncUser_update_frame (s : Store) (cid em : String) (p : Profile)
    (now : Nat) (u : User)
    (hfind : s.users.find? (fun v => v.clerkId == some cid) = some u)
    (hem : p.email = some em) (hne : em ≠ "")
    (hconf : s.users.any (fun v => v.id != u.id && v.email == em) = false) :
    ∃ u' s', syncUser s (some cid) p now = (Except.ok u', s') ∧
      u'.id = u.id ∧ u'.clerkId = u.clerkId ∧ u'.createdAt = u.createdAt ∧
      u'.email = em ∧ u'.name = patchName p.name u.name ∧
      u'.lastUpdated = now ∧
      s'.users.length = s.users.length ∧
      (∀ v ∈ s.users, v.id ≠ u.id → v ∈ s'.users) ∧
      (∀ v ∈ s'.users, v = u' ∨ (v ∈ s.users ∧ v.id ≠ u.id)) ∧
      s'.friendships = s.friendships := by
  have hne' : (em == "") = false := by simpa using hne
  refine ⟨{ u with
            email := em,
            name := patchName p.name u.name,
            lastUpdated := now },
          { s with users := s.users.map (fun v =>
              if v.id == u.id then
                { u with
                  email := em,
                  name := patchName p.name u.name,
                  lastUpdated := now }
              else v) },
          ?_, rfl, rfl, rfl, rfl, rfl, rfl, by simp, ?_, ?_, rfl⟩
  · simp [syncUser, hem, hne', hfind, hconf]
  · intro v hv hvne
    have hvf : (v.id == u.id) = false := by simpa using hvne
    refine List.mem_map.mpr ⟨v, hv, ?_⟩
    simp [hvf]
  · intro v hv
    obtain ⟨w, hw, hwe⟩ := List.mem_map.mp hv
    by_cases hid : (w.id == u.id) = true
    · left
      rw [if_pos hid] at hwe
      exact hwe.symm
    · right
      rw [if_neg hid] at hwe
      subst hwe
      exact ⟨hw, by simpa using hid⟩

/-- The one existing user row for the C7 witness. -/
def demoUser : User :=
  { id := "u0", clerkId := some "c", email := "old@x.com", name := none,
    createdAt := 0, lastUpdated := 0 }

/-- A one-user store for the C7 witness. -/
def demoSyncStore : Store :=
  { users := [demoUser], friendships := [], nextUserId := 1,
    nextFriendshipId := 0 }

/-- A full profile hint for the C7 witness. -/
def demoProfile : Profile :=
  { email := some "new@x.com", name := some "N", username := none }

/-- C7 witness: syncing a new email and name over the one existing row. -/
theorem syncUser_update_frame_witness :
    ∃ u' s', syncUser demoSyncStore (some "c") demoProfile 9 =
        (Except.ok u', s') ∧
      u'.id = demoUser.id ∧ u'.clerkId = demoUser.clerkId ∧
      u'.createdAt = demoUser.createdAt ∧
      u'.email = "new@x.com" ∧ u'.name = patchName demoProfile.name demoUser.name ∧
      u'.lastUpdated = 9 ∧
      s'.users.length = demoSyncStore.users.length ∧
      (∀ v ∈ demoSyncStore.users, v.id ≠ demoUser.id → v ∈ s'.users) ∧
      (∀ v ∈ s'.users, v = u' ∨ (v ∈ demoSyncStore.users ∧ v.id ≠ demoUser.id)) ∧
      s'.friendships = demoSyncStore.friendships :=
  syncUser_update_frame demoSyncStore "c" "new@x.com" demoProfile 9 demoUser
    rfl rfl (by decide) rfl

lemma find?_map_replace (l : List User) (q : User → Bool) (u u' : User)
    (hfind : l.find? q = some u) (hq' : q u' = true) :
    (l.map (fun v => if v.id == u.id then u' else v)).find? q = some u' := by
  induction l with
  | nil => simp at hfind
  | cons w t ih =>
      by_cases hw : q w = true
      · have hu : u = w := by
          rw [List.find?_cons_of_pos _ hw] at hfind
          exact (Option.some.inj hfind).symm
        subst hu
        rw [List.map_cons, if_pos (by simp)]
        exact List.find?_cons_of_pos _ hq'
      · have hw' : q w = false := by simpa using hw
        rw [List.find?_cons_of_neg _ (by simp [hw'])] at hfind
        rw [List.map_cons]
        by_cases hid : (w.id == u.id) = true
        · rw [if_pos hid]
          exact List.find?_cons_of_pos _ hq'
        · rw [if_neg hid]
          rw [List.find?_cons_of_neg _ (by simp [hw'])]
          exact ih hfind

lemma syncUser_found (s : Store) (cid em : String) (p : Profile) (now : Nat)
    (u : User)
    (hpe : p.email = some em) (hne : (em == "") = false)
    (hfind : s.users.find? (fun v => v.clerkId == some cid) = some u)
    (hconf : s.users.any (fun v => v.id != u.id && v.email == em) = false) :
    syncUser s (some cid) p now =
      (Except.ok { u with
          email := em,
          name := patchName p.name u.name,
          lastUpdated := now },
        { s with users := s.users.map (fun v =>
            if v.id == u.id then
              { u with
                email := em,
                name := patchName p.name u.name,
                lastUpdated := now }
            else v) }) := by
  simp [syncUser, hpe, hne, hfind, hconf]

lemma syncUser_notFound (s : Store) (cid em : String) (p : Profile) (now : Nat)
    (hpe : p.email = some em) (hne : (em == "") = false)
    (hfind : s.users.find? (fun v => v.clerkId == some cid) = none)
    (hconf : s.users.any (fun v => v.email == em) = false) :
    syncUser s (some cid) p now =
      (Except.ok
        { id := genUserId s.nextUserId, clerkId := some cid, email := em,
          name := p.name, createdAt := now, lastUpdated := now },
        { s with
            users := s.users ++
              [{ id := genUserId s.nextUserId, clerkId := some cid,
                 email := em, name := p.name, createdAt := now,
                 lastUpdated := now }],
            nextUserId := s.nextUserId + 1 }) := by
  simp [syncUser, hpe, hne, hfind, hconf]

/-- C5: Identity sync is an idempotent upsert keyed on the external identity
id: if `syncUser` for clerk id `cid` with profile `p` succeeds, running it
again with the same `cid` and `p` succeeds, returns a user with the same
`id`, and leaves the Users row count unchanged (the second call updates the
row the first call wrote instead of creating a new one). -/
theorem syncUser_idempotent (s : Store) (cid : String) (p : Profile)
    (n1 n2 : Nat) (u1 : User) (s1 : Store)
    (h1 : syncUser s (some cid) p n1 = (Except.ok u1, s1)) :
    ∃ u2 s2, syncUser s1 (some cid) p n2 = (Except.ok u2, s2) ∧
      u2.id = u1.id ∧ s2.users.length = s1.users.length := by
  cases hpe : p.email with
  | none =>
      have hv : syncUser s (some cid) p n1 = (Except.error ApiError.validation, s) := by
        simp [syncUser, hpe]
      rw [hv] at h1
      simp at h1
  | some em =>
      by_cases hne : (em == "") = true
      · have hv : syncUser s (some cid) p n1 = (Except.error ApiError.validation, s) := by
          simp [syncUser, hpe, hne]
        rw [hv] at h1
        simp at h1
      · have hne' : (em == "") = false := by simpa using hne
        cases hfind : s.users.find? (fun v => v.clerkId == some cid) with
        | some u =>
            by_cases hc : s.users.any (fun v => v.id != u.id && v.email == em) = true
            · have hv : syncUser s (some cid) p n1 = (Except.error ApiError.conflict, s) := by
                simp [syncUser, hpe, hne', hfind, hc]
              rw [hv] at h1
              simp at h1
            · have hc' : s.users.any (fun v => v.id != u.id && v.email == em) = false := by
                simpa using hc
              rw [syncUser_found s cid em p n1 u hpe hne' hfind hc'] at h1
              simp only [Prod.mk.injEq, Except.ok.injEq] at h1
              obtain ⟨hu1, hs1⟩ := h1
              subst hu1
              subst hs1
              have hfind2 : (s.users.map (fun v =>
                  if v.id == u.id then
                    { u with
                      email := em,
                      name := patchName p.name u.name,
                      lastUpdated := n1 }
                  else v)).find? (fun v => v.clerkId == some cid) = some
                    { u with
                      email := em,
                      name := patchName p.name u.name,
                      lastUpdated := n1 } :=
                find?_map_replace s.users _ u _ hfind
                  (by simpa using List.find?_some hfind)
              have hconf2 : (s.users.map (fun v =>
                  if v.id == u.id then
                    { u with
                      email := em,
                      name := patchName p.name u.name,
                      lastUpdated := n1 }
                  else v)).any (fun v =>
                    v.id != ({ u with
                      email := em,
                      name := patchName p.name u.name,
                      lastUpdated := n1 } : User).id && v.email == em) = false := by
                rw [List.any_eq_false]
                intro v hv
                obtain ⟨w, hw, hwe⟩ := List.mem_map.mp hv
                by_cases hid : (w.id == u.id) = true
                · rw [if_pos hid] at hwe
                  subst hwe
                  simp
                · rw [if_neg hid] at hwe
                  subst hwe
                  have hno := List.any_eq_false.mp hc' w hw
                  simp only [Bool.and_eq_true, bne_iff_ne, beq_iff_eq, not_and] at hno
                  have hwid : w.id ≠ u.id := by simpa using hid
                  simp [hno hwid]
              refine ⟨_, _,
                syncUser_found _ cid em p n2 _ hpe hne' hfind2 hconf2, rfl, by simp⟩
        | none =>
            by_cases hcc : s.users.any (fun v => v.email == em) = true
            · have hv : syncUser s (some cid) p n1 = (Except.error ApiError.conflict, s) := by
                simp [syncUser, hpe, hne', hfind, hcc]
              rw [hv] at h1
              simp at h1
            · have hcc' : s.users.any (fun v => v.email == em) = false := by
                simpa using hcc
              rw [syncUser_notFound s cid em p n1 hpe hne' hfind hcc'] at h1
              simp only [Prod.mk.injEq, Except.ok.injEq] at h1
              obtain ⟨hu1, hs1⟩ := h1
              subst hu1
              subst hs1
              have hfind2 : (s.users ++
                  [({ id := genUserId s.nextUserId, clerkId := some cid,
                      email := em, name := p.name, createdAt := n1,
                      lastUpdated := n1 } : User)]).find?
                    (fun v => v.clerkId == some cid) = some
                  { id := genUserId s.nextUserId, clerkId := some cid,
                    email := em, name := p.name, createdAt := n1,
                    lastUpdated := n1 } := by
                rw [List.find?_append, hfind]
                simp
              have hconf2 : (s.users ++
                  [({ id := genUserId s.nextUserId, clerkId := some cid,
                      email := em, name := p.name, createdAt := n1,
                      lastUpdated := n1 } : User)]).any (fun v =>
                    v.id !=
                      ({ id := genUserId s.nextUserId, clerkId := some cid,
                         email := em, name := p.name, createdAt := n1,
                         lastUpdated := n1 } : User).id &&
                    v.email == em) = false := by
                rw [List.any_eq_false]
                intro v hv
                rw [List.mem_append] at hv
                rcases hv with hv | hv
                · have hno := List.any_eq_false.mp hcc' v hv
                  simp only [beq_iff_eq] at hno
                  simp [hno]
                · rw [List.mem_singleton] at hv
                  subst hv
                  simp
              refine ⟨_, _,
                syncUser_found _ cid em p n2 _ hpe hne' hfind2 hconf2, rfl, by simp⟩

/-- C5 witness: re-syncing the profile already stored for clerk id `ext`
(second call of the pair; the first call produced exactly this store). -/
theorem syncUser_idempotent_witness :
    ∃ u2 s2,
      syncUser
          { users := [{ id := "u0", clerkId := some "ext", email := "a@x.com",
                        name := some "A", createdAt := 0, lastUpdated := 0 }],
            friendships := [], nextUserId := 1, nextFriendshipId := 0 }
          (some "ext")
          { email := some "a@x.com", name := some "A", username := none } 1 =
        (Except.ok u2, s2) ∧
      u2.id = "u0" ∧
      s2.users.length =
        ({ users := [{ id := "u0", clerkId := some "ext", email := "a@x.com",
                       name := some "A", createdAt := 0, lastUpdated := 0 }],
           friendships := [], nextUserId := 1, nextFriendshipId := 0 } : Store).users.length :=
  syncUser_idempotent
    { users := [{ id := "u0", clerkId := some "ext", email := "a@x.com",
                  name := some "A", createdAt := 0, lastUpdated := 0 }],
      friendships := [], nextUserId := 1, nextFriendshipId := 0 }
    "ext" { email := some "a@x.com", name := some "A", username := none } 0 1
    { id := "u0", clerkId := some "ext", email := "a@x.com", name := some "A",
      createdAt := 0, lastUpdated := 0 }
    { users := [{ id := "u0", clerkId := some "ext", email := "a@x.com",
                  name := some "A", createdAt := 0, lastUpdated := 0 }],
      friendships := [], nextUserId := 1, nextFriendshipId := 0 }
    rfl

end InTouch
